import Mathlib

/-!
Verification of the `envreq` registry (bbmumford/envreq).

The Go package keeps a process-wide registry of environment-variable
requirements: `Check` merges a declaration into the requirement table,
resolves the variable once, and caches the outcome; `CheckAll` snapshots
everything; `Report` renders a redacted table and counts missing required
entries; `Freeze` gates late required declarations; `Reset` clears state.

The embedding below models the registry state as association lists, the
process environment as a function `String → Option String`, and validators
as functions `String → Option String` (`none` = accepted, `some msg` =
the validator's error).  Go's `nil` validator is `Option.none` around the
function.  All definitions follow `src/envreq.go` and the validator file.
-/

namespace Envreq

/-- The ambient process environment: `lookup name = some value` iff the
variable is set (possibly to the empty string), mirroring `os.LookupEnv`. -/
abbrev Env := String → Option String

/-- A validator `func(string) error`: `none` means accept, `some msg` is the
returned error's message. -/
abbrev Validator := String → Option String

/-- `Requirement` from envreq.go: one declaration site's stated need. -/
structure Requirement where
  name : String
  source : String := ""
  description : String := ""
  optional : Bool := false
  default : String := ""
  validate : Option Validator := none
  sensitive : Bool := false

/-- `Result` from envreq.go: the cached resolution, embedding the canonical
requirement at resolution time. -/
structure Result where
  requirement : Requirement
  present : Bool
  value : String
  err : Option String

/-- Go embeds `Requirement` in `Result`; expose the promoted fields. -/
def Result.name (r : Result) : String := r.requirement.name

def Result.source (r : Result) : String := r.requirement.source

def Result.description (r : Result) : String := r.requirement.description

def Result.optional (r : Result) : Bool := r.requirement.optional

def Result.sensitive (r : Result) : Bool := r.requirement.sensitive

/-- Insert-or-replace in an association list keyed by strings; models
`m[k] = v` on a Go map. -/
def upsert (k : String) (v : α) : List (String × α) → List (String × α)
  | [] => [(k, v)]
  | (k', v') :: rest => if k' = k then (k, v) :: rest else (k', v') :: upsert k v rest

/-- The registry's shared state: requirement table `reg`, result cache
`cache`, and the atomic `frozen` flag. -/
structure State where
  reg : List (String × Requirement) := []
  cache : List (String × Result) := []
  frozen : Bool := false

/-- The merge step of `Check` (envreq.go lines 91–115): stricter wins for
`optional`/`sensitive`, first-writer-wins for the metadata fields. -/
def mergeReq (existing r : Requirement) : Requirement :=
  { existing with
    optional := if !existing.optional || !r.optional then false else existing.optional
    description :=
      if existing.description = "" ∧ r.description ≠ "" then r.description
      else existing.description
    source :=
      if existing.source = "" ∧ r.source ≠ "" then r.source else existing.source
    validate :=
      if existing.validate.isNone ∧ r.validate.isSome then r.validate
      else existing.validate
    default :=
      if existing.default = "" ∧ r.default ≠ "" then r.default else existing.default
    sensitive := if existing.sensitive || r.sensitive then true else existing.sensitive }

/-- The canonical requirement for `r.name` after `Check` merges `r` into
the table (envreq.go lines 91–118): merge with the existing entry, or the
incoming declaration verbatim for a brand-new name. -/
def mergedOf (s : State) (r : Requirement) : Requirement :=
  match s.reg.lookup r.name with
  | some existing => mergeReq existing r
  | none => r

/-- `os.LookupEnv` plus the default fallback (envreq.go lines 130–133):
value and presence, where a non-empty default substitutes for an absent
variable.  A variable set to the empty string counts as present. -/
def lookupOrDefault (env : Env) (n : String) (dflt : String) : String × Bool :=
  match env n with
  | some v => (v, true)
  | none => if dflt ≠ "" then (dflt, true) else ("", false)

/-- First resolution of the merged requirement under name `n` (envreq.go
lines 129–145): the validator runs only when a value is present. -/
def resolveResult (env : Env) (n : String) (merged : Requirement) : Result :=
  let (val, ok) := lookupOrDefault env n merged.default
  let verr : Option String :=
    if ok then
      match merged.validate with
      | some f => f val
      | none => none
    else none
  { requirement := merged, present := ok, value := val, err := verr }

/-- The non-frozen body of `Check` (envreq.go lines 89–151): merge into the
registry, return the cached result if present, otherwise resolve, cache and
return.  Go continues with `r = merged` after the merge; every registry
entry is stored under its own `Name`, so `merged.name = r.name` and the
incoming name keys every map access. -/
def declareResolve (env : Env) (s : State) (r : Requirement) : Result × State :=
  let merged := mergedOf s r
  let s1 : State := { s with reg := upsert r.name merged s.reg }
  match s1.cache.lookup r.name with
  | some cached => (cached, s1)
  | none =>
    let res := resolveResult env r.name merged
    (res, { s1 with cache := upsert r.name res s1.cache })

/-- `CheckAll` (envreq.go lines 166–194): every cached result, plus a
resolution of every registered-but-unresolved requirement, sorted by name.
Each unresolved requirement is taken from the registry itself, so the inner
`Check` call it makes in Go never hits the freeze gate's new-name branch;
its effect is exactly `declareResolve`. -/
def checkAll (env : Env) (s : State) : List Result × State :=
  let cachedOut := s.reg.filterMap (fun p => s.cache.lookup p.1)
  let unchecked := (s.reg.filter (fun p => (s.cache.lookup p.1).isNone)).map (·.2)
  let (extra, s') :=
    unchecked.foldl
      (fun (acc : List Result × State) req =>
        let (res, st) := declareResolve env acc.2 req
        (acc.1 ++ [res], st))
      ([], s)
  ((cachedOut ++ extra).mergeSort (fun a b => a.name ≤ b.name), s')

/-- What a `Check` call does to its caller: returns a result (with or
without the late-optional warning having been logged), or dumps the full
snapshot report and aborts the calling path (Go's unrecoverable fault). -/
inductive CheckOut where
  | ok (warned : Bool) (res : Result) (s : State)
  | panicked (report : List Result) (s : State)

/-- `Check` (envreq.go lines 56–152): the freeze gate first — a brand-new
name while frozen is allowed with a warning when optional and aborts after
surfacing the full `CheckAll` report when required — then the merge /
resolve-once body. -/
def Check (env : Env) (s : State) (r : Requirement) : CheckOut :=
  if s.frozen ∧ (s.reg.lookup r.name).isNone then
    if r.optional then
      let (res, s') := declareResolve env s r
      .ok true res s'
    else
      let (results, s') := checkAll env s
      .panicked results s'
  else
    let (res, s') := declareResolve env s r
    .ok false res s'

/-- The state after a `Check` call, on either outcome. -/
def CheckOut.state : CheckOut → State
  | .ok _ _ s => s
  | .panicked _ s => s

/-- `Value` (envreq.go lines 155–163): a pure cache read returning the
cached value and presence, or `("", false)` when the name is not cached. -/
def Value (s : State) (name : String) : String × Bool :=
  match s.cache.lookup name with
  | some res => (res.value, res.present)
  | none => ("", false)

/-- `Freeze` (envreq.go lines 272–275). -/
def Freeze (s : State) : State := { s with frozen := true }

/-- `Reset` (envreq.go lines 278–285). -/
def Reset (_ : State) : State := {}

/-- Left-justified minimum-width padding, Go's `%-Ns` verb (fmt measures the
width in runes, matching `String.length` on code points). -/
def padRight (s : String) (n : Nat) : String :=
  s ++ String.mk (List.replicate (n - s.length) ' ')

/-- The last `n` characters of a string, Go's `s[len(s)-n:]` on ASCII data. -/
def lastChars (n : Nat) (s : String) : String :=
  String.mk (s.data.drop (s.length - n))

/-- The whole `ENVREQ_SHOW_VALUES` toggle: debug value display is on exactly
when that variable is set to `"1"` (envreq.go line 199). -/
def showValuesOf (env : Env) : Bool := env "ENVREQ_SHOW_VALUES" = some "1"

/-- The STATUS column of one report row (envreq.go lines 222–233). -/
def statusOf (res : Result) : String :=
  if !res.present && !res.optional then "missing"
  else if res.err.isSome then "invalid"
  else "ok"

/-- The DETAILS column of one report row (envreq.go lines 223–248): the
description, or the validator error, or — in debug mode — the description
plus a value preview, masked down to at most the last 4 characters for
sensitive entries. -/
def detailsOf (showValues : Bool) (res : Result) : String :=
  if !res.present && !res.optional then res.description
  else if res.err.isSome then "Error: " ++ res.err.getD ""
  else if showValues && res.present && !res.sensitive then
    if res.value.length > 20 then
      res.description ++ " (value: " ++ res.value.take 17 ++ "...)"
    else
      res.description ++ " (value: " ++ res.value ++ ")"
  else if showValues && res.present && res.sensitive then
    if res.value.length ≥ 4 then
      res.description ++ " (value: ••••" ++ lastChars 4 res.value ++ ")"
    else
      res.description ++ " (value: ••••)"
  else res.description

/-- The contribution of one row to `Report`'s missing count (envreq.go lines
225–233): required-and-absent, or required-present-but-invalid. -/
def missingOf (res : Result) : Nat :=
  if !res.present && !res.optional then 1
  else if res.err.isSome then (if !res.optional then 1 else 0)
  else 0

/-- One formatted report row (envreq.go lines 250–251). -/
def reportRow (showValues : Bool) (res : Result) : String :=
  padRight res.name 20 ++ " " ++ padRight res.source 12 ++ " " ++
    padRight (if !res.optional then "yes" else "no") 8 ++ " " ++
    padRight (if res.sensitive then "yes" else "no") 9 ++ " " ++
    padRight (statusOf res) 8 ++ " " ++ detailsOf showValues res ++ "\n"

/-- The two header lines of the report (envreq.go lines 201–209). -/
def reportHeader : String :=
  padRight "ENV" 20 ++ " " ++ padRight "SOURCE" 12 ++ " " ++
    padRight "REQUIRED" 8 ++ " " ++ padRight "SENSITIVE" 9 ++ " " ++
    padRight "STATUS" 8 ++ " " ++ "DETAILS" ++ "\n" ++
  padRight (String.mk (List.replicate 20 '-')) 20 ++ " " ++
    padRight (String.mk (List.replicate 12 '-')) 12 ++ " " ++
    padRight (String.mk (List.replicate 8 '-')) 8 ++ " " ++
    padRight (String.mk (List.replicate 9 '-')) 9 ++ " " ++
    padRight (String.mk (List.replicate 8 '-')) 8 ++ " " ++
    String.mk (List.replicate 20 '-') ++ "\n"

/-- `Report` (envreq.go lines 198–255): the rendered text and the returned
count of missing required variables. -/
def Report (showValues : Bool) (results : List Result) : String × Nat :=
  (reportHeader ++ String.join (results.map (reportRow showValues)),
   (results.map missingOf).sum)

/-- `MustValidate` (envreq.go lines 258–265): snapshot, report, and decide
a nonzero exit; the Bool is whether the process exits with status 2. -/
def MustValidate (env : Env) (s : State) : Nat × Bool × State :=
  let (results, s') := checkAll env s
  let missing := (Report (showValuesOf env) results).2
  (missing, missing > 0, s')

/-- Go's built-in `<` on strings: lexicographic on the UTF-8 bytes, which
coincides with lexicographic code-point comparison of the character lists
(UTF-8 encoding preserves code-point order). -/
def goListLess : List Char → List Char → Bool
  | [], [] => false
  | [], _ :: _ => true
  | _ :: _, [] => false
  | a :: as, b :: bs =>
    if a < b then true else if b < a then false else goListLess as bs

/-- `a < b` on Go strings. -/
def goStringLess (a b : String) : Bool := goListLess a.data b.data

/-- `Port` from the validators file (lines 67–90): non-empty, at most five
characters, all decimal digits, not `"0"`, and — only for five-character
strings — lexicographically at most `"65535"` (`v > "65535"` in Go). -/
def Port (v : String) : Option String :=
  if v = "" then some "port cannot be empty"
  else if v.length = 0 ∨ v.length > 5 then some "invalid port number"
  else if ¬ v.data.all (fun r => '0' ≤ r && r ≤ '9') then some "port must be numeric"
  else if v = "0" ∨ (v.length = 5 ∧ goStringLess "65535" v) then
    some "port must be between 1 and 65535"
  else none

/-! ### Association-list lemmas -/

theorem lookup_upsert_self (k : String) (v : α) (l : List (String × α)) :
    (upsert k v l).lookup k = some v := by
  induction l with
  | nil => simp [upsert]
  | cons p rest ih =>
    obtain ⟨k', v'⟩ := p
    by_cases h : k' = k
    · subst h; simp [upsert]
    · have hb : (k == k') = false := by
        simp only [beq_eq_false_iff_ne]; exact fun e => h e.symm
      simp only [upsert, if_neg h, List.lookup_cons, hb]
      exact ih

theorem lookup_upsert_ne (k : String) (v : α) (l : List (String × α))
    (n : String) (h : n ≠ k) : (upsert k v l).lookup n = l.lookup n := by
  have hb : (n == k) = false := by simp only [beq_eq_false_iff_ne]; exact h
  induction l with
  | nil => simp [upsert, List.lookup_cons, hb]
  | cons p rest ih =>
    obtain ⟨k', v'⟩ := p
    by_cases hk : k' = k
    · subst hk
      simp [upsert, List.lookup_cons, hb]
    · simp only [upsert, if_neg hk, List.lookup_cons]
      cases hn : (n == k') with
      | true => rfl
      | false => exact ih

/-! ### Reachable registry states and the cache-domain invariant -/

/-- States reachable from the initial empty registry by any sequence of the
package's operations (`Value` and `Report` are pure reads and do not change
the state; the environment may differ from call to call). -/
inductive Reach : State → Prop
  | init : Reach {}
  | check (env : Env) (r : Requirement) {s : State} :
      Reach s → Reach (Check env s r).state
  | snapshot (env : Env) {s : State} : Reach s → Reach (checkAll env s).2
  | freeze {s : State} : Reach s → Reach (Freeze s)
  | reset {s : State} : Reach s → Reach (Reset s)

/-- The invariant of claim C10: every cached name is registered. -/
def CacheInReg (s : State) : Prop :=
  ∀ n res, s.cache.lookup n = some res → (s.reg.lookup n).isSome

/-- `declareResolve` on a cache hit: only the registry entry changes. -/
theorem declareResolve_hit (env : Env) (s : State) (r : Requirement)
    {cached : Result} (h : s.cache.lookup r.name = some cached) :
    declareResolve env s r =
      (cached, { s with reg := upsert r.name (mergedOf s r) s.reg }) := by
  simp [declareResolve, h]

/-- `declareResolve` on a cache miss: the fresh resolution is returned and
stored. -/
theorem declareResolve_miss (env : Env) (s : State) (r : Requirement)
    (h : s.cache.lookup r.name = none) :
    declareResolve env s r =
      (resolveResult env r.name (mergedOf s r),
       { s with reg := upsert r.name (mergedOf s r) s.reg,
                cache := upsert r.name (resolveResult env r.name (mergedOf s r))
                  s.cache }) := by
  simp [declareResolve, h]

theorem declareResolve_cacheInReg (env : Env) (s : State) (r : Requirement)
    (h : CacheInReg s) : CacheInReg (declareResolve env s r).2 := by
  cases hc : (s.cache.lookup r.name) with
  | some cached =>
    rw [declareResolve_hit env s r hc]
    intro n res hlook
    by_cases hn : n = r.name
    · subst hn; simp [lookup_upsert_self]
    · rw [lookup_upsert_ne _ _ _ _ hn]
      exact h n res hlook
  | none =>
    rw [declareResolve_miss env s r hc]
    intro n res hlook
    by_cases hn : n = r.name
    · subst hn; simp [lookup_upsert_self]
    · rw [lookup_upsert_ne _ _ _ _ hn]
      rw [lookup_upsert_ne _ _ _ _ hn] at hlook
      exact h n res hlook

theorem foldl_declareResolve_cacheInReg (env : Env) (reqs : List Requirement)
    (acc : List Result) (s : State) (h : CacheInReg s) :
    CacheInReg (reqs.foldl
      (fun (a : List Result × State) req =>
        let (res, st) := declareResolve env a.2 req
        (a.1 ++ [res], st))
      (acc, s)).2 := by
  induction reqs generalizing acc s with
  | nil => exact h
  | cons q rest ih =>
    simp only [List.foldl_cons]
    exact ih _ _ (declareResolve_cacheInReg env s q h)

theorem checkAll_cacheInReg (env : Env) (s : State) (h : CacheInReg s) :
    CacheInReg (checkAll env s).2 := by
  unfold checkAll
  exact foldl_declareResolve_cacheInReg env _ [] s h

theorem check_cacheInReg (env : Env) (s : State) (r : Requirement)
    (h : CacheInReg s) : CacheInReg (Check env s r).state := by
  unfold Check
  split
  · split
    · simpa [CheckOut.state] using declareResolve_cacheInReg env s r h
    · simpa [CheckOut.state] using checkAll_cacheInReg env s h
  · simpa [CheckOut.state] using declareResolve_cacheInReg env s r h

theorem reach_cacheInReg {s : State} (h : Reach s) : CacheInReg s := by
  induction h with
  | init => intro n res hn; simp [List.lookup] at hn
  | check env r _ ih => exact check_cacheInReg env _ r ih
  | snapshot env _ ih => exact checkAll_cacheInReg env _ ih
  | freeze _ ih => intro n res hn; exact ih n res hn
  | reset _ _ => intro n res hn; simp [Reset, List.lookup] at hn

theorem declareResolve_reg (env : Env) (s : State) (r : Requirement) :
    (declareResolve env s r).2.reg = upsert r.name (mergedOf s r) s.reg := by
  cases hc : s.cache.lookup r.name with
  | some cached => rw [declareResolve_hit env s r hc]
  | none => rw [declareResolve_miss env s r hc]

theorem declareResolve_frozen (env : Env) (s : State) (r : Requirement) :
    (declareResolve env s r).2.frozen = s.frozen := by
  cases hc : s.cache.lookup r.name with
  | some cached => rw [declareResolve_hit env s r hc]
  | none => rw [declareResolve_miss env s r hc]

/-- When the registry is not frozen, `Check` is exactly the merge/resolve
body. -/
theorem check_not_frozen (env : Env) (s : State) (r : Requirement)
    (h : s.frozen = false) :
    Check env s r =
      .ok false (declareResolve env s r).1 (declareResolve env s r).2 := by
  unfold Check
  rw [if_neg (by simp [h])]

/-- When the name is already registered, `Check` is exactly the
merge/resolve body, frozen or not. -/
theorem check_known_name (env : Env) (s : State) (r : Requirement)
    {ex : Requirement} (h : s.reg.lookup r.name = some ex) :
    Check env s r =
      .ok false (declareResolve env s r).1 (declareResolve env s r).2 := by
  unfold Check
  rw [if_neg (by simp [h])]

/-! ### Claim theorems -/

/-- **C10**: in every state reachable by any sequence of the package's
operations, every name with a cached `Result` also has an entry in the
requirement table, so a cached outcome always has a canonical requirement
backing it. -/
theorem cached_names_are_registered (s : State) (h : Reach s) (n : String)
    (res : Result) (hc : s.cache.lookup n = some res) :
    ∃ req, s.reg.lookup n = some req :=
  Option.isSome_iff_exists.mp (reach_cacheInReg h n res hc)

/-- Witness for C10 at the state reached by one `Check` of a required
variable in an empty environment. -/
theorem cached_names_are_registered_witness :
    ∃ req, ((Check (fun _ => none) {} { name := "DATABASE_URL" }).state).reg.lookup
      "DATABASE_URL" = some req :=
  cached_names_are_registered _
    (Reach.check (fun _ => none) { name := "DATABASE_URL" } Reach.init)
    "DATABASE_URL"
    { requirement := { name := "DATABASE_URL" }, present := false, value := "", err := none }
    rfl

/-- **C1**: once a `Result` is cached for a name, every later `Check` for
that name — with any requirement, including one that changes the merged
canonical requirement — returns that cached `Result` unchanged and leaves
the cache untouched (only `Reset` clears it). -/
theorem check_returns_cached (env : Env) (s : State) (r : Requirement)
    (res : Result) (hreach : Reach s) (hc : s.cache.lookup r.name = some res) :
    ∃ s', Check env s r = .ok false res s' ∧ s'.cache = s.cache := by
  have hsome : (s.reg.lookup r.name).isSome := reach_cacheInReg hreach r.name res hc
  have hcond : ¬ (s.frozen = true ∧ (s.reg.lookup r.name).isNone = true) := by
    rintro ⟨-, hnone⟩
    rw [Option.isNone_iff_eq_none] at hnone
    rw [hnone] at hsome
    simp at hsome
  unfold Check
  rw [if_neg hcond, declareResolve_hit env s r hc]
  exact ⟨_, rfl, rfl⟩

/-- Witness for C1: after caching `A = "x"`, a conflicting re-declaration
(optional, with a default) still gets the original cached result. -/
theorem check_returns_cached_witness :
    ∃ s', Check (fun n => if n = "A" then some "x" else none)
        ((Check (fun n => if n = "A" then some "x" else none) {}
          { name := "A", description := "first" }).state)
        { name := "A", description := "second", optional := true, default := "9" } =
      .ok false
        { requirement := { name := "A", description := "first" },
          present := true, value := "x", err := none } s' ∧
      s'.cache = ((Check (fun n => if n = "A" then some "x" else none) {}
        { name := "A", description := "first" }).state).cache :=
  check_returns_cached _ _ _ _
    (Reach.check (fun n => if n = "A" then some "x" else none)
      { name := "A", description := "first" } Reach.init)
    rfl

/-! ### The canonical requirement as a fold of the merge rule (C2) -/

/-- First non-empty string in declaration order, `""` when all are empty. -/
def firstNonEmpty : List String → String
  | [] => ""
  | x :: xs => if x = "" then firstNonEmpty xs else x

/-- First non-`nil` validator in declaration order. -/
def firstSome : List (Option Validator) → Option Validator
  | [] => none
  | some f :: _ => some f
  | none :: xs => firstSome xs

/-- First-writer-wins on one string metadata field (envreq.go lines
98–109). -/
def fww (a b : String) : String := if a = "" ∧ b ≠ "" then b else a

/-- First-writer-wins on the validator field (envreq.go lines 104–106). -/
def fwwO (a b : Option Validator) : Option Validator :=
  if a.isNone ∧ b.isSome then b else a

theorem mergeReq_name (a b : Requirement) : (mergeReq a b).name = a.name := by
  simp [mergeReq]

theorem mergeReq_optional (a b : Requirement) :
    (mergeReq a b).optional = (a.optional && b.optional) := by
  cases ha : a.optional <;> cases hb : b.optional <;> simp [mergeReq, ha, hb]

theorem mergeReq_sensitive (a b : Requirement) :
    (mergeReq a b).sensitive = (a.sensitive || b.sensitive) := by
  cases ha : a.sensitive <;> cases hb : b.sensitive <;> simp [mergeReq, ha, hb]

theorem mergeReq_description (a b : Requirement) :
    (mergeReq a b).description = fww a.description b.description := by
  simp [mergeReq, fww]

theorem mergeReq_source (a b : Requirement) :
    (mergeReq a b).source = fww a.source b.source := by
  simp [mergeReq, fww]

theorem mergeReq_default (a b : Requirement) :
    (mergeReq a b).default = fww a.default b.default := by
  simp [mergeReq, fww]

theorem mergeReq_validate (a b : Requirement) :
    (mergeReq a b).validate = fwwO a.validate b.validate := by
  simp [mergeReq, fwwO]

/-- A field projection commuting with `mergeReq` transports a `foldl` of
merges to a `foldl` on the projected values. -/
theorem foldl_mergeReq_proj {β : Type} (g : Requirement → β) (op : β → β → β)
    (hcomm : ∀ a b, g (mergeReq a b) = op (g a) (g b)) :
    ∀ (l : List Requirement) (a : Requirement),
      g (l.foldl mergeReq a) = (l.map g).foldl op (g a)
  | [], _ => rfl
  | x :: t, a => by
    simp only [List.foldl_cons, List.map_cons]
    rw [foldl_mergeReq_proj g op hcomm t (mergeReq a x), hcomm]

theorem foldl_and (a : Bool) (l : List Bool) :
    l.foldl (· && ·) a = (a && l.all id) := by
  induction l generalizing a with
  | nil => simp
  | cons x t ih => simp [ih, Bool.and_assoc]

theorem foldl_or (a : Bool) (l : List Bool) :
    l.foldl (· || ·) a = (a || l.any id) := by
  induction l generalizing a with
  | nil => simp
  | cons x t ih => simp [ih, Bool.or_assoc]

theorem foldl_fww (a : String) (l : List String) :
    l.foldl fww a = firstNonEmpty (a :: l) := by
  induction l generalizing a with
  | nil => by_cases h : a = "" <;> simp [firstNonEmpty, h]
  | cons x t ih =>
    simp only [List.foldl_cons, ih]
    by_cases ha : a = "" <;> by_cases hx : x = "" <;>
      simp [fww, firstNonEmpty, ha, hx]

theorem foldl_fwwO (a : Option Validator) (l : List (Option Validator)) :
    l.foldl fwwO a = firstSome (a :: l) := by
  induction l generalizing a with
  | nil => cases a <;> simp [firstSome]
  | cons x t ih =>
    simp only [List.foldl_cons, ih]
    cases a <;> cases x <;> simp [fwwO, firstSome]

theorem all_map_id {α : Type} (l : List α) (f : α → Bool) :
    (l.map f).all id = l.all f := by
  induction l with
  | nil => rfl
  | cons x t ih => simp [List.all_cons, ih]

theorem any_map_id {α : Type} (l : List α) (f : α → Bool) :
    (l.map f).any id = l.any f := by
  induction l with
  | nil => rfl
  | cons x t ih => simp [List.any_cons, ih]

/-- A sequence of `Check` calls, tracking only the final state. -/
def runChecks (env : Env) (s : State) (rs : List Requirement) : State :=
  rs.foldl (fun st x => (Check env st x).state) s

theorem runChecks_reg_merge (env : Env) (N : String) :
    ∀ (rs : List Requirement) (s : State) (a : Requirement),
      s.frozen = false → s.reg.lookup N = some a → (∀ x ∈ rs, x.name = N) →
      (runChecks env s rs).reg.lookup N = some (rs.foldl mergeReq a) ∧
      (runChecks env s rs).frozen = false
  | [], _, _, hf, hr, _ => ⟨hr, hf⟩
  | x :: t, s, a, hf, hr, hn => by
    have hxN : x.name = N := hn x (List.mem_cons_self x t)
    have hstate : (Check env s x).state = (declareResolve env s x).2 := by
      rw [check_not_frozen env s x hf]; rfl
    have hreg' : (Check env s x).state.reg.lookup N =
        some (mergeReq a x) := by
      rw [hstate, declareResolve_reg, hxN, lookup_upsert_self, mergedOf, hxN, hr]
    have hfro' : (Check env s x).state.frozen = false := by
      rw [hstate, declareResolve_frozen]; exact hf
    have := runChecks_reg_merge env N t ((Check env s x).state) (mergeReq a x)
      hfro' hreg' (fun y hy => hn y (List.mem_cons_of_mem x hy))
    simpa [runChecks, List.foldl_cons] using this

/-- **C2**: after any finite sequence of `Check` calls declaring the name
`N` into a not-yet-frozen registry, the canonical requirement for `N` has:
`optional` true iff every declaration was optional, `sensitive` true iff
some declaration was sensitive, and `description`, `source`, `default` and
`validate` each equal to the first non-empty (non-nil) declared value. -/
theorem canonical_requirement_merge (env : Env) (s : State) (N : String)
    (r : Requirement) (rest : List Requirement)
    (hf : s.frozen = false) (hreg : s.reg.lookup N = none)
    (hn : ∀ x ∈ r :: rest, x.name = N) :
    ∃ R, (runChecks env s (r :: rest)).reg.lookup N = some R ∧
      R.optional = (r :: rest).all (·.optional) ∧
      R.sensitive = (r :: rest).any (·.sensitive) ∧
      R.description = firstNonEmpty ((r :: rest).map (·.description)) ∧
      R.source = firstNonEmpty ((r :: rest).map (·.source)) ∧
      R.default = firstNonEmpty ((r :: rest).map (·.default)) ∧
      R.validate = firstSome ((r :: rest).map (·.validate)) := by
  have hrN : r.name = N := hn r (List.mem_cons_self r rest)
  have hstate : (Check env s r).state = (declareResolve env s r).2 := by
    rw [check_not_frozen env s r hf]; rfl
  have hreg1 : (Check env s r).state.reg.lookup N = some r := by
    rw [hstate, declareResolve_reg, hrN, lookup_upsert_self, mergedOf, hrN, hreg]
  have hfro1 : (Check env s r).state.frozen = false := by
    rw [hstate, declareResolve_frozen]; exact hf
  have hrest := runChecks_reg_merge env N rest ((Check env s r).state) r
    hfro1 hreg1 (fun y hy => hn y (List.mem_cons_of_mem r hy))
  refine ⟨rest.foldl mergeReq r, ?_, ?_, ?_, ?_, ?_, ?_, ?_⟩
  · simpa [runChecks, List.foldl_cons] using hrest.1
  · rw [foldl_mergeReq_proj (·.optional) (· && ·) mergeReq_optional,
      foldl_and]
    rw [all_map_id]
    simp [List.all_cons]
  · rw [foldl_mergeReq_proj (·.sensitive) (· || ·) mergeReq_sensitive,
      foldl_or]
    rw [any_map_id]
    simp [List.any_cons]
  · rw [foldl_mergeReq_proj (·.description) fww mergeReq_description,
      foldl_fww]
    simp
  · rw [foldl_mergeReq_proj (·.source) fww mergeReq_source, foldl_fww]
    simp
  · rw [foldl_mergeReq_proj (·.default) fww mergeReq_default, foldl_fww]
    simp
  · rw [foldl_mergeReq_proj (·.validate) fwwO mergeReq_validate, foldl_fwwO]
    simp

/-- Witness for C2: an optional declaration with a description, followed by
a required sensitive declaration with a source and default. -/
theorem canonical_requirement_merge_witness :
    ∃ R, (runChecks (fun _ => none) {}
        [{ name := "K", optional := true, description := "d1" },
         { name := "K", source := "s2", sensitive := true, default := "z" }]).reg.lookup
        "K" = some R ∧
      R.optional = ([{ name := "K", optional := true, description := "d1" },
         ({ name := "K", source := "s2", sensitive := true, default := "z" } :
           Requirement)].all (·.optional)) ∧
      R.sensitive = ([{ name := "K", optional := true, description := "d1" },
         ({ name := "K", source := "s2", sensitive := true, default := "z" } :
           Requirement)].any (·.sensitive)) ∧
      R.description = firstNonEmpty
        ([{ name := "K", optional := true, description := "d1" },
         ({ name := "K", source := "s2", sensitive := true, default := "z" } :
           Requirement)].map (·.description)) ∧
      R.source = firstNonEmpty
        ([{ name := "K", optional := true, description := "d1" },
         ({ name := "K", source := "s2", sensitive := true, default := "z" } :
           Requirement)].map (·.source)) ∧
      R.default = firstNonEmpty
        ([{ name := "K", optional := true, description := "d1" },
         ({ name := "K", source := "s2", sensitive := true, default := "z" } :
           Requirement)].map (·.default)) ∧
      R.validate = firstSome
        ([{ name := "K", optional := true, description := "d1" },
         ({ name := "K", source := "s2", sensitive := true, default := "z" } :
           Requirement)].map (·.validate)) :=
  canonical_requirement_merge (fun _ => none) {} "K"
    { name := "K", optional := true, description := "d1" }
    [{ name := "K", source := "s2", sensitive := true, default := "z" }]
    rfl rfl
    (by intro x hx
        simp only [List.mem_cons, List.not_mem_nil, or_false] at hx
        rcases hx with h | h <;> rw [h])

theorem resolveResult_requirement (env : Env) (n : String) (R : Requirement) :
    (resolveResult env n R).requirement = R := rfl

theorem resolveResult_present (env : Env) (n : String) (R : Requirement) :
    (resolveResult env n R).present = (lookupOrDefault env n R.default).2 := rfl

theorem resolveResult_value (env : Env) (n : String) (R : Requirement) :
    (resolveResult env n R).value = (lookupOrDefault env n R.default).1 := rfl

/-- **C3**: with the registry frozen and the name brand-new, an optional
declaration proceeds through the normal merge/resolve body but with the
warning diagnostic; a required one surfaces the full `CheckAll` snapshot
and aborts the calling path.  A name already declared proceeds normally,
frozen or not. -/
theorem freeze_gate (env : Env) (s : State) (r : Requirement) :
    (s.frozen = true → s.reg.lookup r.name = none → r.optional = true →
      Check env s r =
        .ok true (declareResolve env s r).1 (declareResolve env s r).2) ∧
    (s.frozen = true → s.reg.lookup r.name = none → r.optional = false →
      Check env s r = .panicked (checkAll env s).1 (checkAll env s).2) ∧
    (∀ ex, s.reg.lookup r.name = some ex →
      Check env s r =
        .ok false (declareResolve env s r).1 (declareResolve env s r).2) := by
  refine ⟨?_, ?_, ?_⟩
  · intro hf hreg hopt
    simp [Check, hf, hreg, hopt]
  · intro hf hreg hopt
    simp [Check, hf, hreg, hopt]
  · intro ex hex
    exact check_known_name env s r hex

/-- Witness for C3 at a frozen one-entry registry: a new optional name
warns and proceeds, a new required name aborts with the snapshot, and the
existing name proceeds normally. -/
theorem freeze_gate_witness :
    Check (fun _ => none)
        { reg := [("OLD", { name := "OLD" })], cache := [], frozen := true }
        { name := "NEW", optional := true } =
      .ok true
        (declareResolve (fun _ => none)
          { reg := [("OLD", { name := "OLD" })], cache := [], frozen := true }
          { name := "NEW", optional := true }).1
        (declareResolve (fun _ => none)
          { reg := [("OLD", { name := "OLD" })], cache := [], frozen := true }
          { name := "NEW", optional := true }).2 ∧
    Check (fun _ => none)
        { reg := [("OLD", { name := "OLD" })], cache := [], frozen := true }
        { name := "NEW2" } =
      .panicked
        (checkAll (fun _ => none)
          { reg := [("OLD", { name := "OLD" })], cache := [], frozen := true }).1
        (checkAll (fun _ => none)
          { reg := [("OLD", { name := "OLD" })], cache := [], frozen := true }).2 ∧
    Check (fun _ => none)
        { reg := [("OLD", { name := "OLD" })], cache := [], frozen := true }
        { name := "OLD", sensitive := true } =
      .ok false
        (declareResolve (fun _ => none)
          { reg := [("OLD", { name := "OLD" })], cache := [], frozen := true }
          { name := "OLD", sensitive := true }).1
        (declareResolve (fun _ => none)
          { reg := [("OLD", { name := "OLD" })], cache := [], frozen := true }
          { name := "OLD", sensitive := true }).2 :=
  ⟨(freeze_gate _ _ _).1 rfl rfl rfl,
   (freeze_gate _ _ _).2.1 rfl rfl rfl,
   (freeze_gate _ _ _).2.2 { name := "OLD" } rfl⟩

/-- **C4**: on the first resolution of a name (no cached result, and the
call is not aborted by the freeze gate), the returned and cached result
embeds the merged canonical requirement `R`; it is present with the
environment value when the variable is set (even to the empty string),
present with `R.default` when the variable is absent and the default is
non-empty, and absent with the empty value otherwise; the error is the
validator applied to the value exactly when present and a validator
exists, and `nil` otherwise. -/
theorem first_resolution (env : Env) (s : State) (r : Requirement)
    (hc : s.cache.lookup r.name = none)
    (hnp : s.frozen = false ∨ (s.reg.lookup r.name).isSome ∨ r.optional = true) :
    ∃ w s' res, Check env s r = .ok w res s' ∧
      res.requirement = mergedOf s r ∧
      (∀ v, env r.name = some v → res.present = true ∧ res.value = v) ∧
      (env r.name = none → (mergedOf s r).default ≠ "" →
        res.present = true ∧ res.value = (mergedOf s r).default) ∧
      (env r.name = none → (mergedOf s r).default = "" →
        res.present = false ∧ res.value = "") ∧
      (∀ f, (mergedOf s r).validate = some f →
        res.err = if res.present then f res.value else none) ∧
      ((mergedOf s r).validate = none → res.err = none) := by
  have hbody : ∃ w, Check env s r =
      .ok w (declareResolve env s r).1 (declareResolve env s r).2 := by
    by_cases hcond : (s.frozen = true ∧ (s.reg.lookup r.name).isNone = true)
    · have hopt : r.optional = true := by
        rcases hnp with hf | hsome | hopt
        · rw [hf] at hcond; simp at hcond
        · rw [Option.isNone_iff_eq_none] at hcond
          rw [hcond.2] at hsome; simp at hsome
        · exact hopt
      refine ⟨true, ?_⟩
      unfold Check
      rw [if_pos hcond, if_pos hopt]
    · exact ⟨false, by unfold Check; rw [if_neg hcond]⟩
  obtain ⟨w, hw⟩ := hbody
  rw [declareResolve_miss env s r hc] at hw
  refine ⟨w, _, resolveResult env r.name (mergedOf s r), hw, rfl, ?_, ?_, ?_, ?_, ?_⟩
  · intro v hv
    constructor <;>
      simp [resolveResult_present, resolveResult_value, lookupOrDefault, hv]
  · intro hnone hd
    constructor <;>
      simp [resolveResult_present, resolveResult_value, lookupOrDefault, hnone, hd]
  · intro hnone hd
    constructor <;>
      simp [resolveResult_present, resolveResult_value, lookupOrDefault, hnone, hd]
  · intro f hf
    simp only [resolveResult, resolveResult_present, resolveResult_value, hf]
  · intro hnone
    simp only [resolveResult, hnone]
    cases (lookupOrDefault env r.name (mergedOf s r).default).2 <;> simp

/-- Witness for C4: an optional `PORT` with default `"8080"` in an empty
environment yields a present result carrying the default. -/
theorem first_resolution_witness :
    ∃ w s' res, Check (fun _ => none) {}
        { name := "PORT", optional := true, default := "8080" } = .ok w res s' ∧
      res.requirement = mergedOf {} { name := "PORT", optional := true, default := "8080" } ∧
      (∀ v, (fun (_ : String) => (none : Option String)) "PORT" = some v →
        res.present = true ∧ res.value = v) ∧
      ((fun (_ : String) => (none : Option String)) "PORT" = none →
        (mergedOf {} { name := "PORT", optional := true, default := "8080" }).default ≠ "" →
        res.present = true ∧
        res.value = (mergedOf {} { name := "PORT", optional := true, default := "8080" }).default) ∧
      ((fun (_ : String) => (none : Option String)) "PORT" = none →
        (mergedOf {} { name := "PORT", optional := true, default := "8080" }).default = "" →
        res.present = false ∧ res.value = "") ∧
      (∀ f, (mergedOf {} { name := "PORT", optional := true, default := "8080" }).validate = some f →
        res.err = if res.present then f res.value else none) ∧
      ((mergedOf {} { name := "PORT", optional := true, default := "8080" }).validate = none →
        res.err = none) :=
  first_resolution (fun _ => none) {}
    { name := "PORT", optional := true, default := "8080" } rfl (Or.inl rfl)

theorem missingOf_eq (res : Result) :
    missingOf res =
      if (!res.optional && (!res.present || res.err.isSome)) then 1 else 0 := by
  unfold missingOf
  cases hp : res.present <;> cases ho : res.optional <;> cases he : res.err <;>
    simp [hp, ho, he]

/-- **C5**: `Report`'s missing count (the number `MustValidate` compares
against zero for its exit decision) is exactly the number of required
results that are absent or carry a validator error; optional entries never
count.  For one present-and-valid, one required-and-absent and one
required-present-but-invalid entry the count is 2. -/
theorem report_missing_count :
    (∀ (sv : Bool) (results : List Result), (Report sv results).2 =
      (results.filter fun res =>
        !res.optional && (!res.present || res.err.isSome)).length) ∧
    (∀ (env : Env) (s : State),
      (MustValidate env s).2.1 = decide (0 < (MustValidate env s).1)) ∧
    (Report false
      [{ requirement := { name := "A", source := "t" },
         present := true, value := "v", err := none },
       { requirement := { name := "B", source := "t" },
         present := false, value := "", err := none },
       { requirement := { name := "C", source := "t" },
         present := true, value := "x", err := some "bad" }]).2 = 2 := by
  refine ⟨?_, ?_, rfl⟩
  · intro sv results
    simp only [Report]
    induction results with
    | nil => rfl
    | cons res t ih =>
      simp only [List.map_cons, List.sum_cons, List.filter_cons]
      rw [missingOf_eq]
      cases hb : (!res.optional && (!res.present || res.err.isSome)) <;>
        simp [hb, ih] <;> omega
  · intro env s
    rfl

/-- Substring occurrence on strings (is `needle` a contiguous substring of
`hay`). -/
def strContains (hay needle : String) : Bool :=
  (List.range (hay.length + 1)).any (fun i => needle.data.isPrefixOf (hay.data.drop i))

/-- A sensitive result whose validator error text happens to contain the
secret value (e.g. a validator that echoes its input). -/
def leakResult : Result :=
  { requirement :=
      { name := "STRIPE_KEY", source := "payments", description := "API key",
        sensitive := true },
    present := true, value := "sk_test_1234567890",
    err := some "invalid key: sk_test_1234567890" }

set_option maxRecDepth 10000

/-- Counterexample to C6: `Report` prints validator error text verbatim in
the details column, even for sensitive entries, so a sensitive value that
occurs in the error message appears raw in the rendered report — here even
with the show-values toggle disabled, contradicting both "never contains
the raw Value" and "with it disabled no part of the value appears". -/
theorem report_prints_sensitive_value_in_error_text :
    strContains (Report false [leakResult]).1 "sk_test_1234567890" = true := by
  rfl

/-- **C6 amended**: for a sensitive result, the details column is always
the plain description, the verbatim validator error text, or — only with
the toggle on and the value present — the description plus a mask showing
at most the last 4 characters of the value; with the toggle off no part of
the `Value` field itself is incorporated.  (The full value can still leak
when it occurs inside the description or the validator error text, which
are printed verbatim, as the counterexample shows.) -/
theorem sensitive_details_masked (sv : Bool) (res : Result)
    (h : res.sensitive = true) :
    (detailsOf sv res = res.description ∨
     (∃ e, res.err = some e ∧ detailsOf sv res = "Error: " ++ e) ∨
     (sv = true ∧ res.present = true ∧
       ((4 ≤ res.value.length ∧
          detailsOf sv res =
            res.description ++ " (value: ••••" ++ lastChars 4 res.value ++ ")") ∨
        (res.value.length < 4 ∧
          detailsOf sv res = res.description ++ " (value: ••••)")))) ∧
    (sv = false →
      detailsOf sv res = res.description ∨
      ∃ e, res.err = some e ∧ detailsOf sv res = "Error: " ++ e) := by
  have main : detailsOf sv res = res.description ∨
      (∃ e, res.err = some e ∧ detailsOf sv res = "Error: " ++ e) ∨
      (sv = true ∧ res.present = true ∧
        ((4 ≤ res.value.length ∧
           detailsOf sv res =
             res.description ++ " (value: ••••" ++ lastChars 4 res.value ++ ")") ∨
         (res.value.length < 4 ∧
           detailsOf sv res = res.description ++ " (value: ••••)"))) := by
    cases hp : res.present <;> cases ho : res.optional <;>
      cases he : res.err <;> cases hsv : sv <;>
      by_cases hl : 4 ≤ res.value.length <;>
      simp [detailsOf, hp, ho, he, hsv, h, hl] <;>
      omega
  refine ⟨main, ?_⟩
  intro hsv
  rcases main with hd | herr | ⟨hsvt, -⟩
  · exact Or.inl hd
  · exact Or.inr herr
  · rw [hsv] at hsvt; cases hsvt

/-- A present sensitive result with no validator error, for the C6
witness. -/
def maskResult : Result :=
  { requirement := { name := "K", description := "key", sensitive := true },
    present := true, value := "sk_test_1234567890", err := none }

/-- Witness for the amended C6: a present sensitive key with the toggle on
shows only the 4-character masked suffix. -/
theorem sensitive_details_masked_witness :
    (detailsOf true maskResult = maskResult.description ∨
     (∃ e, maskResult.err = some e ∧
        detailsOf true maskResult = "Error: " ++ e) ∨
     (true = true ∧ maskResult.present = true ∧
       ((4 ≤ maskResult.value.length ∧
          detailsOf true maskResult =
            maskResult.description ++ " (value: ••••" ++
              lastChars 4 maskResult.value ++ ")") ∨
        (maskResult.value.length < 4 ∧
          detailsOf true maskResult =
            maskResult.description ++ " (value: ••••)")))) ∧
    (true = false →
      detailsOf true maskResult = maskResult.description ∨
      ∃ e, maskResult.err = some e ∧
        detailsOf true maskResult = "Error: " ++ e) :=
  sensitive_details_masked true maskResult rfl

/-- Counterexample to C7: `Value` returns only a `(value, present)` pair —
there is no third found flag — so after caching the absent required
variable `A`, looking up `A` (cached, not present) and looking up the
never-declared `B` return identical results; they are not distinguishable
as the claim states. -/
theorem value_lookup_conflates_absent_and_unknown :
    (((Check (fun _ => none) {} { name := "A" }).state).cache.lookup "A").isSome = true ∧
    ((Check (fun _ => none) {} { name := "A" }).state).cache.lookup "B" = none ∧
    Value ((Check (fun _ => none) {} { name := "A" }).state) "A" =
      Value ((Check (fun _ => none) {} { name := "A" }).state) "B" :=
  ⟨rfl, rfl, rfl⟩

/-- **C7 amended**: `Value` returns the pair `(value, present)` of the
cached outcome, and `("", false)` for a name with no cached outcome; a
cached empty-but-present value is distinguishable from a miss (the Bool
differs), but a cached absent outcome is not — the code has no separate
found flag. -/
theorem value_lookup (s : State) (name : String) :
    (s.cache.lookup name = none → Value s name = ("", false)) ∧
    (∀ res, s.cache.lookup name = some res →
      Value s name = (res.value, res.present)) := by
  constructor
  · intro h; simp [Value, h]
  · intro res h; simp [Value, h]

/-- Witness for the amended C7: an uncached name and a cached-but-absent
name both yield `("", false)`. -/
theorem value_lookup_witness :
    Value ((Check (fun _ => none) {} { name := "A" }).state) "NOPE" = ("", false) ∧
    Value ((Check (fun _ => none) {} { name := "A" }).state) "A" = ("", false) :=
  ⟨(value_lookup _ "NOPE").1 rfl,
   (value_lookup _ "A").2
     { requirement := { name := "A" }, present := false, value := "", err := none } rfl⟩

/-! ### Interleaved executions of two concurrent `Check` calls (C8)

Go's `Check` is not one critical section: the merge (`mu.Lock`), the cache
check (`mu.RLock`), and the cache store (`mu.Lock`) are three separate
lock-protected sections, and the resolve (environment read + validator) in
between runs with no lock held.  The model below makes each of those a
single atomic step of a thread, so every schedule of the two threads is an
execution the real mutex permits. -/

/-- An ASCII decimal digit, the class admitted by `Port`'s digit loop. -/
abbrev IsDigitChar (c : Char) : Prop := '0' ≤ c ∧ c ≤ '9'

/-- The numeric digit encoded by a digit character. -/
def digitVal (c : Char) : Nat := c.toNat - '0'.toNat

/-- The integer value of a most-significant-first digit string. -/
def digitsVal (l : List Char) : Nat :=
  l.foldl (fun a c => a * 10 + digitVal c) 0

/-- The integer value of a decimal digit string. -/
def strVal (s : String) : Nat := digitsVal s.data

theorem char_lt_iff_toNat (a b : Char) : a < b ↔ a.toNat < b.toNat := Iff.rfl

theorem char_le_iff_toNat (a b : Char) : a ≤ b ↔ a.toNat ≤ b.toNat := Iff.rfl

theorem char_eq_of_toNat_eq {a b : Char} (h : a.toNat = b.toNat) : a = b :=
  Char.ext (UInt32.eq_of_toBitVec_eq (BitVec.eq_of_toNat_eq h))

theorem digitVal_lt_ten {c : Char} (h : IsDigitChar c) : digitVal c < 10 := by
  have h9 : c.toNat ≤ ('9' : Char).toNat := (char_le_iff_toNat c '9').mp h.2
  have h0 : ('0' : Char).toNat ≤ c.toNat := (char_le_iff_toNat '0' c).mp h.1
  rw [show ('9' : Char).toNat = 57 from rfl] at h9
  rw [show ('0' : Char).toNat = 48 from rfl] at h0
  unfold digitVal
  rw [show ('0' : Char).toNat = 48 from rfl]
  omega

theorem digitVal_lt_of_lt {a b : Char} (ha : IsDigitChar a) (h : a < b) :
    digitVal a < digitVal b := by
  have h0 : ('0' : Char).toNat ≤ a.toNat := (char_le_iff_toNat '0' a).mp ha.1
  have hlt : a.toNat < b.toNat := (char_lt_iff_toNat a b).mp h
  rw [show ('0' : Char).toNat = 48 from rfl] at h0
  unfold digitVal
  rw [show ('0' : Char).toNat = 48 from rfl]
  omega

theorem digitsVal_foldl (l : List Char) :
    ∀ a : Nat, l.foldl (fun x c => x * 10 + digitVal c) a =
      a * 10 ^ l.length + digitsVal l := by
  induction l with
  | nil => intro a; simp [digitsVal]
  | cons c t ih =>
    intro a
    simp only [List.foldl_cons, List.length_cons, digitsVal]
    rw [ih (a * 10 + digitVal c), ih (0 * 10 + digitVal c)]
    ring

theorem digitsVal_cons (c : Char) (t : List Char) :
    digitsVal (c :: t) = digitVal c * 10 ^ t.length + digitsVal t := by
  show List.foldl _ (0 * 10 + digitVal c) t = _
  rw [digitsVal_foldl t (0 * 10 + digitVal c)]
  ring

theorem digitsVal_lt_pow (l : List Char) (h : ∀ c ∈ l, IsDigitChar c) :
    digitsVal l < 10 ^ l.length := by
  induction l with
  | nil => simp [digitsVal]
  | cons c t ih =>
    have hc := h c (List.mem_cons_self c t)
    have ht := ih (fun x hx => h x (List.mem_cons_of_mem c hx))
    rw [digitsVal_cons, List.length_cons]
    calc digitVal c * 10 ^ t.length + digitsVal t
        < digitVal c * 10 ^ t.length + 10 ^ t.length :=
          Nat.add_lt_add_left ht _
      _ = (digitVal c + 1) * 10 ^ t.length := by ring
      _ ≤ 10 * 10 ^ t.length :=
          mul_le_mul_right' (Nat.succ_le_of_lt (digitVal_lt_ten hc)) _
      _ = 10 ^ (t.length + 1) := by rw [pow_succ]; ring

/-- On equal-length digit strings, Go's lexicographic comparison agrees
with integer comparison. -/
theorem goListLess_iff_digitsVal : ∀ (l1 l2 : List Char),
    (∀ c ∈ l1, IsDigitChar c) → (∀ c ∈ l2, IsDigitChar c) →
    l1.length = l2.length →
    (goListLess l1 l2 = true ↔ digitsVal l1 < digitsVal l2)
  | [], [], _, _, _ => by simp [goListLess]
  | [], c :: t, _, _, h => by simp at h
  | c :: t, [], _, _, h => by simp at h
  | c1 :: t1, c2 :: t2, h1, h2, hlen => by
    have hl : t1.length = t2.length := by simpa using hlen
    have hd1 := h1 c1 (List.mem_cons_self c1 t1)
    have hd2 := h2 c2 (List.mem_cons_self c2 t2)
    have ih := goListLess_iff_digitsVal t1 t2
      (fun x hx => h1 x (List.mem_cons_of_mem c1 hx))
      (fun x hx => h2 x (List.mem_cons_of_mem c2 hx)) hl
    rw [digitsVal_cons, digitsVal_cons, hl]
    by_cases hlt : c1 < c2
    · simp only [goListLess, if_pos hlt, true_iff]
      have hdv := digitVal_lt_of_lt hd1 hlt
      have hv1 : digitsVal t1 < 10 ^ t2.length := by
        rw [← hl]; exact digitsVal_lt_pow t1
          (fun x hx => h1 x (List.mem_cons_of_mem c1 hx))
      calc digitVal c1 * 10 ^ t2.length + digitsVal t1
          < digitVal c1 * 10 ^ t2.length + 10 ^ t2.length :=
            Nat.add_lt_add_left hv1 _
        _ = (digitVal c1 + 1) * 10 ^ t2.length := by ring
        _ ≤ digitVal c2 * 10 ^ t2.length :=
            mul_le_mul_right' (Nat.succ_le_of_lt hdv) _
        _ ≤ digitVal c2 * 10 ^ t2.length + digitsVal t2 := Nat.le_add_right _ _
    · by_cases hgt : c2 < c1
      · simp only [goListLess, if_neg hlt, if_pos hgt, Bool.false_eq_true,
          false_iff]
        have hdv := digitVal_lt_of_lt hd2 hgt
        have hv2 : digitsVal t2 < 10 ^ t2.length := digitsVal_lt_pow t2
          (fun x hx => h2 x (List.mem_cons_of_mem c2 hx))
        have hle : digitVal c2 * 10 ^ t2.length + digitsVal t2 <
            digitVal c1 * 10 ^ t2.length + digitsVal t1 :=
          calc digitVal c2 * 10 ^ t2.length + digitsVal t2
              < digitVal c2 * 10 ^ t2.length + 10 ^ t2.length :=
                Nat.add_lt_add_left hv2 _
            _ = (digitVal c2 + 1) * 10 ^ t2.length := by ring
            _ ≤ digitVal c1 * 10 ^ t2.length :=
                mul_le_mul_right' (Nat.succ_le_of_lt hdv) _
            _ ≤ digitVal c1 * 10 ^ t2.length + digitsVal t1 := Nat.le_add_right _ _
        exact not_lt.mpr (le_of_lt hle)
      · have heq : c1 = c2 := le_antisymm (not_lt.mp hgt) (not_lt.mp hlt)
        subst heq
        simp only [goListLess, if_neg hlt, ih]
        exact (add_lt_add_iff_left _).symm

/-- **C9**: for every string of exactly five decimal digits, `Port`'s
lexicographic comparison against `"65535"` agrees with integer comparison:
the range error is produced exactly when the integer value exceeds 65535,
so the shortcut is correct under the length-5 gate. -/
theorem port_lex_shortcut (v : String) (h5 : v.length = 5)
    (hd : ∀ c ∈ v.data, IsDigitChar c) :
    (Port v = some "port must be between 1 and 65535" ↔ 65535 < strVal v) := by
  have hdata5 : v.data.length = 5 := h5
  have hne : ¬ (v = "") := by
    intro h; rw [h] at h5; exact absurd h5 (by decide)
  have hlen0 : ¬ (v.length = 0 ∨ v.length > 5) := by
    rw [h5]; omega
  have hall : v.data.all (fun r => '0' ≤ r && r ≤ '9') = true := by
    rw [List.all_eq_true]
    intro c hc
    have h := hd c hc
    simp [h.1, h.2]
  have hnot0 : ¬ (v = "0") := by
    intro h; rw [h] at h5; exact absurd h5 (by decide)
  have hlex : goStringLess "65535" v = true ↔ 65535 < strVal v := by
    have h65 : ∀ c ∈ ("65535").data, IsDigitChar c := by decide
    have hlen : ("65535").data.length = v.data.length := by
      rw [hdata5]; rfl
    have := goListLess_iff_digitsVal ("65535").data v.data h65 hd hlen
    rw [show digitsVal ("65535").data = 65535 from by decide] at this
    exact this
  unfold Port
  rw [if_neg hne, if_neg hlen0, if_neg (by simp [hall])]
  by_cases hgl : goStringLess "65535" v = true
  · rw [if_pos (Or.inr ⟨h5, hgl⟩)]
    simp only [Option.some.injEq]
    constructor
    · intro _; exact hlex.mp hgl
    · intro _; exact trivial
  · rw [if_neg ?hcond]
    case hcond =>
      rintro (h0 | ⟨-, hless⟩)
      · exact hnot0 h0
      · exact hgl hless
    constructor
    · intro h; exact Option.noConfusion h
    · intro h; exact absurd (hlex.mpr h) hgl

/-- Witness for C9: `"99999"` is rejected with the range error because its
integer value exceeds 65535. -/
theorem port_lex_shortcut_witness :
    Port "99999" = some "port must be between 1 and 65535" :=
  (port_lex_shortcut "99999" rfl (by decide)).mpr (by decide)

end Envreq
